import Mathlib

set_option maxHeartbeats 1000000

/-!
Verification of the lucent-server chat / wellness-inference pipeline.

The definitions below are a shallow embedding of `app/api/users/service.py`
(the wellness extractor and the chat-turn orchestrator), of
`app/api/wellness/service.py` (the wellness CRUD service), and of the data
they operate on.  Python dictionaries are modelled as association lists with
insert-or-replace update (which preserves both Python's key-overwrite
semantics and its insertion-order iteration), JSON values as the inductive
type `JsonVal`, and each service method as a pure function from an explicit
database state to a new state plus an `Except`-typed outcome.
-/

/-- Values produced by Python's `json.loads`, restricted to standard JSON.
Numbers are modelled as integers: a decimal literal `d.f` truncates toward
zero, exactly the value the later `int()` coercion in
`_validate_wellness_scores` produces, so nothing downstream can distinguish
the two; exponent notation and the non-standard `Infinity`/`NaN` literals
are outside the modelled subset.  A Python `bool` is a subclass of `int`
carrying the value 1 or 0, which is how `boolean` is treated by the
coercion below. -/
inductive JsonVal : Type where
  | num (n : Int)
  | str (s : String)
  | boolean (b : Bool)
  | null
  | arr (items : List JsonVal)
  | obj (kvs : List (String × JsonVal))
deriving Repr

/-- A Python `dict` keyed by strings, as an association list in insertion
order. -/
abbrev PyDict := List (String × JsonVal)

/-- Lookup of a key in a Python dict (first binding wins; `insertReplace`
keeps keys unique). -/
def assocLookup : PyDict → String → Option JsonVal
  | [], _ => none
  | (k, v) :: rest, key => if k = key then some v else assocLookup rest key

/-- Assignment `d[k] = v` on a Python dict: replace the value in place if
the key exists, otherwise append the new binding at the end, mirroring
insertion-order semantics. -/
def insertReplace : PyDict → String → JsonVal → PyDict
  | [], k, v => [(k, v)]
  | (k', v') :: rest, k, v =>
    if k' = k then (k', v) :: rest else (k', v') :: insertReplace rest k v

/-- Python `str.lower()` on the ASCII letters (the category names and the
reply keys the claims concern are ASCII). -/
def pyLower (s : String) : String :=
  String.mk (s.data.map Char.toLower)

/-- Python `str.capitalize()`: first character upper-cased, the rest
lower-cased. -/
def pyCapitalize (s : String) : String :=
  match s.data with
  | [] => ""
  | c :: rest => String.mk (Char.toUpper c :: rest.map Char.toLower)

/-- Digits to a natural number, `foldl`-style. -/
def digitsToNat (cs : List Char) : Nat :=
  cs.foldl (fun a c => a * 10 + (c.toNat - 48)) 0

/-- Python `int(s)` on a string: optional surrounding whitespace, an
optional sign, then decimal digits; anything else raises `ValueError`
(modelled as `none`). -/
def strToInt (s : String) : Option Int :=
  let cs := s.data.dropWhile Char.isWhitespace
  let cs := (cs.reverse.dropWhile Char.isWhitespace).reverse
  match cs with
  | '-' :: rest =>
    if rest ≠ [] ∧ rest.all Char.isDigit then some (-(digitsToNat rest : Int)) else none
  | '+' :: rest =>
    if rest ≠ [] ∧ rest.all Char.isDigit then some ((digitsToNat rest : Int)) else none
  | rest =>
    if rest ≠ [] ∧ rest.all Char.isDigit then some ((digitsToNat rest : Int)) else none

/-- The coercion `int(value) if not isinstance(value, int) else value` from
`_validate_wellness_scores`, returning `none` exactly when Python raises
`ValueError` or `TypeError` (strings that are not integer literals, `None`,
lists, dicts).  A Python `bool` passes the `isinstance(value, int)` test and
is kept with its integer value 1 or 0. -/
def pyInt : JsonVal → Option Int
  | .num n => some n
  | .boolean b => some (if b then 1 else 0)
  | .str s => strToInt s
  | _ => none

/-- The `required_categories` list of `update_wellness_from_messages`. -/
def required_categories : List String :=
  ["physical", "financial", "emotional", "spiritual", "social", "environmental", "creative"]

/-- The helper `_get_category_value`: the exact key, else the capitalized
key, else nothing. -/
def get_category_value (data_dict : PyDict) (category : String) : Option JsonVal :=
  match assocLookup data_dict category with
  | some v => some v
  | none => assocLookup data_dict (pyCapitalize category)

/-- The helper `_get_previous_value`: the exact key when present and not
`None`, else the capitalized key when present and not `None`, else
nothing. -/
def get_previous_value (previous_wellness : PyDict) (category : String) : Option JsonVal :=
  match assocLookup previous_wellness category with
  | some .null =>
    match assocLookup previous_wellness (pyCapitalize category) with
    | some .null => none
    | some v => some v
    | none => none
  | some v => some v
  | none =>
    match assocLookup previous_wellness (pyCapitalize category) with
    | some .null => none
    | some v => some v
    | none => none

/-- The fallback inside the first loop of `_validate_wellness_scores`
(`if category in previous_wellness and previous_wellness[category] is not
None`): unlike `_get_previous_value` it checks the exact key only. -/
def prevExactNonNull (previous_wellness : PyDict) (category : String) : Option JsonVal :=
  match assocLookup previous_wellness category with
  | some .null => none
  | some v => some v
  | none => none

/-- The body of the first loop of `_validate_wellness_scores` for one
extracted value: coerce to `int` and clamp with `max(0, min(100, _))`,
falling back to the previous value (exact key) or 50 when the coercion
raises. -/
def coerceScore (value : JsonVal) (previous_wellness : PyDict) (category : String) : JsonVal :=
  match pyInt value with
  | some n => .num (max 0 (min 100 n))
  | none =>
    match prevExactNonNull previous_wellness category with
    | some pv => pv
    | none => .num 50

/-- The helper `_validate_wellness_scores`: a first pass coerces and clamps
every extracted value, a second pass fills every still-missing category
from the previous record or with the default 50. -/
def validate_wellness_scores (wellness_data previous_wellness : PyDict)
    (cats : List String) : PyDict :=
  let validated :=
    cats.foldl (fun acc category =>
      match get_category_value wellness_data category with
      | some value => insertReplace acc category (coerceScore value previous_wellness category)
      | none => acc) []
  cats.foldl (fun acc category =>
    match assocLookup acc category with
    | some _ => acc
    | none =>
      insertReplace acc category
        (match get_previous_value previous_wellness category with
         | some prev_value => prev_value
         | none => .num 50)) validated

/-- A wellness score as the spec's invariant demands it: an integer in
[0,100]. -/
def isGoodScore : JsonVal → Bool
  | .num n => decide (0 ≤ n ∧ n ≤ 100)
  | _ => false

/-- A previous wellness record in the shape the claims hypothesise: each of
the seven lower-case categories bound to an integer in [0,100]. -/
def prevValid (prev : PyDict) : Bool :=
  required_categories.all fun c =>
    match assocLookup prev c with
    | some (.num n) => decide (0 ≤ n ∧ n ≤ 100)
    | _ => false

/-- Whitespace as `json.loads` skips it: space, tab, newline, carriage
return (exactly the characters of `Char.isWhitespace`). -/
def skipWs (cs : List Char) : List Char :=
  cs.dropWhile Char.isWhitespace

/-- Value of a hexadecimal digit. -/
def hexVal (c : Char) : Option Nat :=
  if '0' ≤ c ∧ c ≤ '9' then some (c.toNat - 48)
  else if 'a' ≤ c ∧ c ≤ 'f' then some (c.toNat - 87)
  else if 'A' ≤ c ∧ c ≤ 'F' then some (c.toNat - 70)
  else none

/-- Body of a JSON string after the opening quote: decoded characters plus
the remainder after the closing quote.  The standard escapes are handled;
a Unicode escape decodes its four hex digits directly (surrogate pairing
is outside the modelled subset). -/
def parseStringRest : List Char → Option (List Char × List Char)
  | [] => none
  | '"' :: rest => some ([], rest)
  | '\\' :: '"' :: rest => (parseStringRest rest).map fun p => ('"' :: p.1, p.2)
  | '\\' :: '\\' :: rest => (parseStringRest rest).map fun p => ('\\' :: p.1, p.2)
  | '\\' :: '/' :: rest => (parseStringRest rest).map fun p => ('/' :: p.1, p.2)
  | '\\' :: 'n' :: rest => (parseStringRest rest).map fun p => ('\n' :: p.1, p.2)
  | '\\' :: 't' :: rest => (parseStringRest rest).map fun p => ('\t' :: p.1, p.2)
  | '\\' :: 'r' :: rest => (parseStringRest rest).map fun p => ('\r' :: p.1, p.2)
  | '\\' :: 'b' :: rest => (parseStringRest rest).map fun p => (Char.ofNat 8 :: p.1, p.2)
  | '\\' :: 'f' :: rest => (parseStringRest rest).map fun p => (Char.ofNat 12 :: p.1, p.2)
  | '\\' :: 'u' :: h1 :: h2 :: h3 :: h4 :: rest =>
    match hexVal h1, hexVal h2, hexVal h3, hexVal h4 with
    | some a, some b, some c, some d =>
      (parseStringRest rest).map fun p =>
        (Char.ofNat (((a * 16 + b) * 16 + c) * 16 + d) :: p.1, p.2)
    | _, _, _, _ => none
  | '\\' :: _ => none
  | c :: rest => (parseStringRest rest).map fun p => (c :: p.1, p.2)

/-- Fractional part of a JSON number: consume a dot and its digits when
present (the digits only shift the value below the integer part, which the
truncating coercion discards). -/
def dropFrac (cs : List Char) : Option (List Char) :=
  match cs with
  | '.' :: rest =>
    let p := rest.span Char.isDigit
    if p.1 = [] then none else some p.2
  | _ => some cs

/-- Magnitude of a JSON number: a bare zero or a nonzero leading digit
followed by digits, with an optional fraction. -/
def parseNumMag (cs : List Char) : Option (Nat × List Char) :=
  match cs with
  | '0' :: rest => (dropFrac rest).map fun r => (0, r)
  | c :: rest =>
    if c.isDigit then
      let p := rest.span Char.isDigit
      (dropFrac p.2).map fun r => (digitsToNat (c :: p.1), r)
    else none
  | [] => none

/-- A JSON number, truncated toward zero as the later `int()` coercion
would truncate it (exponent notation is outside the modelled subset). -/
def parseNumber (cs : List Char) : Option (Int × List Char) :=
  match cs with
  | '-' :: rest => (parseNumMag rest).map fun p => (-(p.1 : Int), p.2)
  | _ => (parseNumMag cs).map fun p => ((p.1 : Int), p.2)

mutual

/-- One JSON value with leading whitespace, fuelled recursive descent. -/
def parseVal : Nat → List Char → Option (JsonVal × List Char)
  | 0, _ => none
  | fuel + 1, cs =>
    match skipWs cs with
    | '{' :: rest =>
      match skipWs rest with
      | '}' :: r2 => some (.obj [], r2)
      | _ => parseMembers fuel rest []
    | '[' :: rest =>
      match skipWs rest with
      | ']' :: r2 => some (.arr [], r2)
      | _ => parseItems fuel rest []
    | '"' :: rest => (parseStringRest rest).map fun p => (.str (String.mk p.1), p.2)
    | 't' :: 'r' :: 'u' :: 'e' :: rest => some (.boolean true, rest)
    | 'f' :: 'a' :: 'l' :: 's' :: 'e' :: rest => some (.boolean false, rest)
    | 'n' :: 'u' :: 'l' :: 'l' :: rest => some (.null, rest)
    | cs2 => (parseNumber cs2).map fun p => (.num p.1, p.2)

/-- Members of a JSON object; duplicate keys overwrite in place, exactly as
`json.loads` builds the Python dict. -/
def parseMembers : Nat → List Char → PyDict → Option (JsonVal × List Char)
  | 0, _, _ => none
  | fuel + 1, cs, acc =>
    match skipWs cs with
    | '"' :: rest =>
      match parseStringRest rest with
      | none => none
      | some (key, r1) =>
        match skipWs r1 with
        | ':' :: r2 =>
          match parseVal fuel r2 with
          | none => none
          | some (v, r3) =>
            match skipWs r3 with
            | ',' :: r4 => parseMembers fuel r4 (insertReplace acc (String.mk key) v)
            | '}' :: r4 => some (.obj (insertReplace acc (String.mk key) v), r4)
            | _ => none
        | _ => none
    | _ => none

/-- Items of a JSON array. -/
def parseItems : Nat → List Char → List JsonVal → Option (JsonVal × List Char)
  | 0, _, _ => none
  | fuel + 1, cs, acc =>
    match parseVal fuel cs with
    | none => none
    | some (v, r1) =>
      match skipWs r1 with
      | ',' :: r2 => parseItems fuel r2 (acc ++ [v])
      | ']' :: r2 => some (.arr (acc ++ [v]), r2)
      | _ => none

end

/-- Python `json.loads` on the modelled subset: one value, surrounding
whitespace allowed, trailing input rejected.  Two units of fuel per
character bound the recursion depth of any parse. -/
def json_loads (s : String) : Option JsonVal :=
  match parseVal (2 * s.length + 2) s.data with
  | some (v, rest) => if skipWs rest = [] then some v else none
  | none => none

/-- Leftmost-greedy search for a brace-delimited block, as `re.search` with
the pattern used in `_parse_wellness_response` computes it: the match runs
from the first opening brace of the text to the last closing brace, and
exists exactly when some closing brace follows the first opening brace. -/
def dropToBrace : List Char → Option (List Char)
  | [] => none
  | '{' :: rest => some ('{' :: rest)
  | _ :: rest => dropToBrace rest

/-- Remainder of the regex search: cut the suffix that starts at the first
opening brace back to its last closing brace. -/
def reSearchBraces (cs : List Char) : Option (List Char) :=
  match dropToBrace cs with
  | none => none
  | some suf =>
    match suf.reverse.dropWhile (fun c => c ≠ '}') with
    | [] => none
    | r => some r.reverse

/-- The helper `_parse_wellness_response`: an array-of-mappings reply is
decoded whole; otherwise the first-to-last brace span (or, absent one, the
whole text) is decoded as one object.  Every key is stored lower-cased;
every decode failure is swallowed, leaving the empty dict. -/
def parse_wellness_response (response_text : String) : PyDict :=
  let cs := response_text.data
  if cs.head? = some '[' ∧ cs.getLast? = some ']' then
    match json_loads response_text with
    | some (.arr wellness_items) =>
      wellness_items.foldl (fun acc item =>
        match item with
        | .obj kvs => kvs.foldl (fun a kv => insertReplace a (pyLower kv.1) kv.2) acc
        | _ => acc) []
    | _ => []
  else
    match reSearchBraces cs with
    | some sub =>
      match json_loads (String.mk sub) with
      | some (.obj kvs) => kvs.foldl (fun a kv => insertReplace a (pyLower kv.1) kv.2) []
      | _ => []
    | none =>
      match json_loads response_text with
      | some (.obj kvs) => kvs.foldl (fun a kv => insertReplace a (pyLower kv.1) kv.2) []
      | _ => []

/-- A chat message as stored in a chat's `messages` array. -/
structure ChatMessage where
  content : String
  sender : String
  timestamp : String
deriving Repr, DecidableEq

/-- A row of the `User_Chats` table. -/
structure ChatRow where
  chat_id : Nat
  user_id : String
  messages : List ChatMessage
  date : String
deriving Repr, DecidableEq

/-- A row of the `Resources` table. -/
structure Resource where
  type : String
  link : String
deriving Repr, DecidableEq

/-- A row of the `User_Wellness` table as the pipeline inserts it: the
seven category scores under their lower-case keys. -/
structure WellnessRow where
  user_id : String
  date : String
  scores : PyDict
deriving Repr

/-- The database state the chat turn touches: the chat log table, the
wellness table, the serial id the next inserted chat receives, and the
read-only school-resource association (`School_Resource` links a school id
to a resource id, matched against the `type` column of `Resources`). -/
structure DbState where
  chats : List ChatRow
  wellnessRows : List WellnessRow
  nextChatId : Nat
  schoolLinks : List (String × String)
  resourceRows : List Resource
deriving Repr

/-- Observable steps of one chat turn, named after the spec's state
machine. -/
inductive Ev where
  | gatherContext
  | callModel
  | persistTurn
  | extractWellness
  | persistWellness
  | done
  | failed
deriving Repr, DecidableEq

/-- An HTTP error as the service surfaces it. -/
structure HttpErr where
  status : Nat
  detail : String
deriving Repr, DecidableEq

/-- The successful payload of a chat turn. -/
structure ChatTurnResponse where
  response : String
  chat_id : Nat
  school_resources : List Resource
deriving Repr, DecidableEq

/-- Outcomes of the external language-model requests one turn can issue:
the main chat completion and the two wellness-extraction attempts.  An
`Except.error` is the model client raising, carrying the exception
message. -/
structure Gateway where
  chatReply : Except String String
  wellnessReply : Except String String
  wellnessRetryReply : Except String String

/-- Leading-segment comparison of character lists. -/
def leadEq : List Char → List Char → Bool
  | [], _ => true
  | _ :: _, [] => false
  | a :: as, b :: bs => a = b && leadEq as bs

/-- Substring test, Python `needle in haystack`. -/
def containsSub (needle : List Char) : List Char → Bool
  | [] => leadEq needle []
  | c :: rest => leadEq needle (c :: rest) || containsSub needle rest

/-- The `except Exception` tail of `get_openai_response` (source lines
567-575): every exception raised inside the handler, the deliberate
`HTTPException(404, ...)` included, is re-raised as a status-500
`HTTPException` whose detail wraps the stringified original error. -/
def wrapTurnError (error_message : String) : HttpErr :=
  if containsSub "openai_client".data error_message.data then
    ⟨500, "OpenAI API error: " ++ error_message⟩
  else if containsSub "supabase".data error_message.data then
    ⟨500, "Database error: " ++ error_message⟩
  else
    ⟨500, "Error processing request: " ++ error_message⟩

/-- The extraction phase of `update_wellness_from_messages`: parse the
model reply; when nothing was extracted, retry once on the second reply;
when still nothing, fail with the `ValueError` the source raises (an error
from either model call propagates to the same surrounding handler). -/
def extract_wellness_data (reply retry_reply : Except String String) :
    Except String PyDict :=
  match reply with
  | .error e => .error e
  | .ok text =>
    let wellness_data := parse_wellness_response text
    if wellness_data.isEmpty then
      match retry_reply with
      | .error e => .error e
      | .ok retry_text =>
        let retry_data := parse_wellness_response retry_text
        if retry_data.isEmpty then
          .error "Could not extract wellness data from the LLM response after retry"
        else .ok retry_data
    else .ok wellness_data

/-- The whole of `update_wellness_from_messages` as invoked from the chat
turn (source lines 552-559 and 664-757).  The `previous_wellness` argument
the orchestrator passes is the raw supabase query response, not a dict;
Python's `category in previous_wellness` membership test on that object
iterates field-name/value pairs and never matches a category string, so
the previous-record fallback behaves exactly as it would on an empty dict
(source lines 468, 554, 816-819, 823-830, 842-848).  Every exception is
caught inside the function, which reports failure in its return value
instead of raising. -/
def update_wellness_from_messages (gw : Gateway) (user_id today : String)
    (db : DbState) : DbState × List Ev × Bool :=
  match extract_wellness_data gw.wellnessReply gw.wellnessRetryReply with
  | .error _ => (db, [.extractWellness], false)
  | .ok wellness_data =>
    let validated := validate_wellness_scores wellness_data [] required_categories
    let row : WellnessRow := ⟨user_id, today, validated⟩
    ({db with wellnessRows := db.wellnessRows ++ [row]},
     [.extractWellness, .persistWellness], true)

/-- The chat-turn orchestrator `get_openai_response` (source lines
449-575), its observable effects made explicit: the resulting database
state, the per-turn event trace, and the HTTP outcome.  When the school
has any linked resources, the prompt-injection line concatenates a plain
string with the raw wellness query response and raises `TypeError` before
the model is called (source line 487), so a turn only proceeds past
context gathering for a school with no resource links. -/
def get_openai_response (gw : Gateway) (db : DbState)
    (prompt user_id user_school : String) (chat_id : Option Nat) (now : String) :
    DbState × List Ev × Except HttpErr ChatTurnResponse :=
  let school_resource_ids := (db.schoolLinks.filter (fun l => l.1 == user_school)).map Prod.snd
  let resources := school_resource_ids.foldl
    (fun acc rid => acc ++ db.resourceRows.filter (fun r => r.type == rid)) []
  if resources ≠ [] then
    (db, [.gatherContext, .failed],
     .error (wrapTurnError "can only concatenate str (not \"APIResponse\") to str"))
  else
    match gw.chatReply with
    | .error e => (db, [.gatherContext, .callModel, .failed], .error (wrapTurnError e))
    | .ok ai_response =>
      let user_message : ChatMessage := ⟨prompt, "user", now⟩
      let ai_message : ChatMessage := ⟨ai_response, "ai", now⟩
      match chat_id with
      | none =>
        let new_chat : ChatRow := ⟨db.nextChatId, user_id, [user_message, ai_message], now⟩
        ({db with chats := db.chats ++ [new_chat], nextChatId := db.nextChatId + 1},
         [.gatherContext, .callModel, .persistTurn, .done],
         .ok ⟨ai_response, db.nextChatId, resources⟩)
      | some cid =>
        match db.chats.find? (fun c => c.chat_id == cid) with
        | none =>
          (db, [.gatherContext, .callModel, .failed],
           .error (wrapTurnError ("404: Chat with ID " ++ toString cid ++ " not found")))
        | some current_chat =>
          let updated_messages := current_chat.messages ++ [user_message, ai_message]
          let newChats := db.chats.map
            (fun c => if c.chat_id == cid then { c with messages := updated_messages } else c)
          let db1 : DbState := { db with chats := newChats }
          let w := update_wellness_from_messages gw user_id now db1
          (w.1, [.gatherContext, .callModel, .persistTurn] ++ w.2.1 ++ [.done],
           .ok ⟨ai_response, cid, resources⟩)

/-- A row of the `User` table (the fields the lookup touches). -/
structure UserRow where
  email : String
  name : String
  school : String
deriving Repr, DecidableEq

/-- Body of the `try` block of `get_user`: select by email, with the
deliberate 404 when no row matches. -/
def get_user_inner (users : List UserRow) (user_id : String) : Except HttpErr UserRow :=
  match users.find? (fun u => u.email == user_id) with
  | none => .error ⟨404, "User with identifier " ++ user_id ++ " not found"⟩
  | some u => .ok u

/-- The service method `get_user` (source lines 158-181): the blanket
`except Exception` catches the 404 `HTTPException` raised inside the `try`
block and re-raises it as a status-500 error wrapping its string form,
which for an `HTTPException` is `"status: detail"`. -/
def get_user (users : List UserRow) (user_id : String) : Except HttpErr UserRow :=
  match get_user_inner users user_id with
  | .ok u => .ok u
  | .error e =>
    .error ⟨500, "Error retrieving user: " ++ toString e.status ++ ": " ++ e.detail⟩

/-- Body of the `try` block of `get_user_chat`: select by chat id, with
the deliberate 404 when no row matches. -/
def get_user_chat_inner (db : DbState) (chat_id : Nat) : Except HttpErr ChatRow :=
  match db.chats.find? (fun c => c.chat_id == chat_id) with
  | none => .error ⟨404, "Chat with ID " ++ toString chat_id ++ " not found"⟩
  | some c => .ok c

/-- The service method `get_user_chat` (source lines 303-324): like
`get_user`, the blanket `except Exception` re-wraps the inner 404 into a
status-500 error. -/
def get_user_chat (db : DbState) (chat_id : Nat) : Except HttpErr ChatRow :=
  match get_user_chat_inner db chat_id with
  | .ok c => .ok c
  | .error e =>
    .error ⟨500, "Error retrieving chat: " ++ toString e.status ++ ": " ++ e.detail⟩

/-- A row of the `User_Wellness` table as the wellness CRUD service reads
and writes it.  The service's response transform copies exactly these
fields, so the row doubles as the response shape. -/
structure WellnessTableRow where
  wellness_id : Nat
  user_id : String
  date : String
  physical : Int
  financial : Int
  emotional : Int
  spiritual : Int
  social : Int
  environmental : Int
  creative : Int
deriving Repr, DecidableEq

/-- The `UserWellnessUpdate` request model: every field optional. -/
structure UserWellnessUpdate where
  record_date : Option String
  physical : Option Int
  financial : Option Int
  emotional : Option Int
  spiritual : Option Int
  social : Option Int
  environmental : Option Int
  creative : Option Int
deriving Repr, DecidableEq

/-- The service method `get_user_wellness` (wellness service, lines
71-105): select by id; the inner 404 is re-wrapped into a 500 by the
blanket `except`, as in `get_user`. -/
def get_user_wellness (rows : List WellnessTableRow) (wellness_id : Nat) :
    Except HttpErr WellnessTableRow :=
  match rows.find? (fun r => r.wellness_id == wellness_id) with
  | none =>
    .error ⟨500, "Error retrieving wellness record: 404: Wellness record with ID "
      ++ toString wellness_id ++ " not found"⟩
  | some r => .ok r

/-- Emptiness test `if not update_data` of `update_user_wellness`: the
filtered dict is empty exactly when every optional field is `None`. -/
def emptyUpdate (w : UserWellnessUpdate) : Bool :=
  w.record_date.isNone && w.physical.isNone && w.financial.isNone && w.emotional.isNone
    && w.spiritual.isNone && w.social.isNone && w.environmental.isNone && w.creative.isNone

/-- Application of the non-`None` fields of an update to a stored row (the
supabase `update` call with `db_update_data`, after the `record_date` to
`date` field mapping). -/
def applyWellnessUpdate (w : UserWellnessUpdate) (r : WellnessTableRow) : WellnessTableRow :=
  { r with
    date := w.record_date.getD r.date
    physical := w.physical.getD r.physical
    financial := w.financial.getD r.financial
    emotional := w.emotional.getD r.emotional
    spiritual := w.spiritual.getD r.spiritual
    social := w.social.getD r.social
    environmental := w.environmental.getD r.environmental
    creative := w.creative.getD r.creative }

/-- The service method `update_user_wellness` (wellness service, lines
171-232): with every optional field `None` the stored record is read back
and returned without any write; otherwise the matching row is updated in
place and returned.  A missing row surfaces as the usual re-wrapped 500. -/
def update_user_wellness (rows : List WellnessTableRow) (wellness_id : Nat)
    (wellness : UserWellnessUpdate) :
    List WellnessTableRow × Except HttpErr WellnessTableRow :=
  if emptyUpdate wellness then
    (rows, get_user_wellness rows wellness_id)
  else
    match rows.find? (fun r => r.wellness_id == wellness_id) with
    | none =>
      (rows, .error ⟨500, "Error updating wellness record: 404: Wellness record with ID "
        ++ toString wellness_id ++ " not found"⟩)
    | some r =>
      (rows.map (fun row =>
        if row.wellness_id == wellness_id then applyWellnessUpdate wellness row else row),
       .ok (applyWellnessUpdate wellness r))

def prevSample : PyDict :=
  [("physical", .num 60), ("financial", .num 70), ("emotional", .num 70),
   ("spiritual", .num 70), ("social", .num 30), ("environmental", .num 70),
   ("creative", .num 70)]

def dbEmpty : DbState := ⟨[], [], 1, [], []⟩

def chatSample : ChatRow :=
  ⟨7, "student@example.com",
   [⟨"earlier question", "user", "t0"⟩, ⟨"earlier answer", "ai", "t0"⟩], "t0"⟩

def dbOneChat : DbState := ⟨[chatSample], [], 8, [], []⟩

def gwChatOnly : Gateway := ⟨.ok "Hello there!", .error "model down", .error "model down"⟩

def gwFail : Gateway := ⟨.error "openai_client unavailable", .ok "", .ok ""⟩

def gwGood : Gateway := ⟨.ok "Hello there!", .ok "\x7b\"physical\": 80\x7d", .ok ""⟩

def gwNoScores : Gateway := ⟨.ok "ignored", .ok "I cannot produce scores.", .ok "Still no scores."⟩

def wellnessRowSample : WellnessTableRow :=
  ⟨5, "student@example.com", "2025-01-01", 60, 70, 70, 70, 30, 70, 70⟩

def emptyWellnessUpdate : UserWellnessUpdate :=
  ⟨none, none, none, none, none, none, none, none⟩

theorem assocLookup_insertReplace_self (l : PyDict) (k : String) (v : JsonVal) :
    assocLookup (insertReplace l k v) k = some v := by
  induction l with
  | nil => simp [insertReplace, assocLookup]
  | cons hd tl ih =>
    obtain ⟨k', v'⟩ := hd
    by_cases h : k' = k
    · simp [insertReplace, assocLookup, h]
    · simp [insertReplace, assocLookup, h, ih]

theorem assocLookup_insertReplace_ne (l : PyDict) (k a : String) (v : JsonVal)
    (h : a ≠ k) : assocLookup (insertReplace l k v) a = assocLookup l a := by
  induction l with
  | nil =>
    have hka : ¬ (k = a) := fun hh => h hh.symm
    simp [insertReplace, assocLookup, hka]
  | cons hd tl ih =>
    obtain ⟨k', v'⟩ := hd
    by_cases hk : k' = k
    · subst hk
      have hka : ¬ (k' = a) := fun hh => h hh.symm
      simp [insertReplace, assocLookup, hka]
    · simp only [insertReplace, if_neg hk]
      by_cases ha : k' = a
      · simp [assocLookup, ha]
      · simp [assocLookup, ha, ih]

theorem mem_insertReplace {l : PyDict} {k a : String} {v b : JsonVal}
    (h : (a, b) ∈ insertReplace l k v) : (a = k ∧ b = v) ∨ (a, b) ∈ l := by
  induction l with
  | nil => simp [insertReplace] at h; simp [h]
  | cons hd tl ih =>
    obtain ⟨k', v'⟩ := hd
    by_cases hk : k' = k
    · subst hk
      simp [insertReplace] at h
      rcases h with ⟨h1, h2⟩ | h
      · exact Or.inl ⟨h1, h2⟩
      · exact Or.inr (List.mem_cons_of_mem _ h)
    · simp only [insertReplace, if_neg hk, List.mem_cons] at h
      rcases h with h | h
      · exact Or.inr (by simp [h])
      · rcases ih h with h' | h'
        · exact Or.inl h'
        · exact Or.inr (List.mem_cons_of_mem _ h')

theorem keys_mem_insertReplace {l : PyDict} {k a : String} {v : JsonVal}
    (h : a ∈ (insertReplace l k v).map Prod.fst) : a = k ∨ a ∈ l.map Prod.fst := by
  simp only [List.mem_map] at h ⊢
  obtain ⟨⟨x, y⟩, hm, hx⟩ := h
  rcases mem_insertReplace hm with ⟨h1, _⟩ | h1
  · exact Or.inl (hx ▸ h1)
  · exact Or.inr ⟨(x, y), h1, hx⟩

theorem mem_keys_of_lookup_isSome {l : PyDict} {a : String}
    (h : (assocLookup l a).isSome) : a ∈ l.map Prod.fst := by
  induction l with
  | nil => simp [assocLookup] at h
  | cons hd tl ih =>
    obtain ⟨k', v'⟩ := hd
    by_cases hk : k' = a
    · simp [hk]
    · simp only [assocLookup, if_neg hk] at h
      simp only [List.map_cons, List.mem_cons]
      exact Or.inr (ih h)

theorem lookup_isSome_of_mem_keys {l : PyDict} {a : String}
    (h : a ∈ l.map Prod.fst) : (assocLookup l a).isSome := by
  induction l with
  | nil => simp at h
  | cons hd tl ih =>
    obtain ⟨k', v'⟩ := hd
    by_cases hk : k' = a
    · simp [assocLookup, hk]
    · simp only [List.map_cons, List.mem_cons] at h
      rcases h with h | h
      · exact absurd h.symm hk
      · simp only [assocLookup, if_neg hk]
        exact ih h

theorem nodup_keys_insertReplace {l : PyDict} {k : String} {v : JsonVal}
    (h : (l.map Prod.fst).Nodup) : ((insertReplace l k v).map Prod.fst).Nodup := by
  induction l with
  | nil => simp [insertReplace]
  | cons hd tl ih =>
    obtain ⟨k', v'⟩ := hd
    by_cases hk : k' = k
    · simpa [insertReplace, hk] using h
    · simp only [List.map_cons, List.nodup_cons] at h
      simp only [insertReplace, if_neg hk, List.map_cons, List.nodup_cons]
      refine ⟨?_, ih h.2⟩
      intro hmem
      rcases keys_mem_insertReplace hmem with h1 | h1
      · exact hk h1
      · exact h.1 h1

theorem lookup_isSome_insertReplace {l : PyDict} {k a : String} {v : JsonVal}
    (h : (assocLookup l a).isSome) :
    (assocLookup (insertReplace l k v) a).isSome := by
  by_cases hk : a = k
  · subst hk; simp [assocLookup_insertReplace_self]
  · simpa [assocLookup_insertReplace_ne l k a v hk] using h

theorem prevValid_lookup {prev : PyDict} {c : String}
    (hprev : prevValid prev = true) (hc : c ∈ required_categories) :
    ∃ n : Int, assocLookup prev c = some (JsonVal.num n) ∧ 0 ≤ n ∧ n ≤ 100 := by
  unfold prevValid at hprev
  have h := List.all_eq_true.1 hprev c hc
  cases hl : assocLookup prev c with
  | none => simp [hl] at h
  | some v =>
    cases v with
    | num n =>
      refine ⟨n, rfl, ?_⟩
      simpa [hl] using h
    | str s => simp [hl] at h
    | boolean b => simp [hl] at h
    | null => simp [hl] at h
    | arr xs => simp [hl] at h
    | obj kvs => simp [hl] at h

theorem coerceScore_good {prev : PyDict} {c : String} (v : JsonVal)
    (hprev : prevValid prev = true) (hc : c ∈ required_categories) :
    isGoodScore (coerceScore v prev c) = true := by
  unfold coerceScore
  cases hp : pyInt v with
  | some n =>
    simp only [isGoodScore, decide_eq_true_iff]
    omega
  | none =>
    obtain ⟨m, hm, h0, h1⟩ := prevValid_lookup hprev hc
    simp only [prevExactNonNull, hm, isGoodScore, decide_eq_true_iff]
    omega

theorem get_previous_value_eq {prev : PyDict} {c : String}
    (hprev : prevValid prev = true) (hc : c ∈ required_categories) :
    get_previous_value prev c = assocLookup prev c := by
  obtain ⟨m, hm, _, _⟩ := prevValid_lookup hprev hc
  simp [get_previous_value, hm]

theorem fillValue_good {prev : PyDict} {c : String}
    (hprev : prevValid prev = true) (hc : c ∈ required_categories) :
    isGoodScore (match get_previous_value prev c with
      | some prev_value => prev_value
      | none => JsonVal.num 50) = true := by
  obtain ⟨m, hm, h0, h1⟩ := prevValid_lookup hprev hc
  rw [get_previous_value_eq hprev hc, hm]
  simp only [isGoodScore, decide_eq_true_iff]
  omega

theorem loop1_invariant (data prev : PyDict) (hprev : prevValid prev = true)
    (cats : List String) (hsub : ∀ c ∈ cats, c ∈ required_categories)
    (acc : PyDict)
    (hgood : ∀ p ∈ acc, p.1 ∈ required_categories ∧ isGoodScore p.2 = true)
    (hnd : (acc.map Prod.fst).Nodup) :
    (∀ p ∈ cats.foldl (fun acc category =>
        match get_category_value data category with
        | some value => insertReplace acc category (coerceScore value prev category)
        | none => acc) acc, p.1 ∈ required_categories ∧ isGoodScore p.2 = true)
    ∧ ((cats.foldl (fun acc category =>
        match get_category_value data category with
        | some value => insertReplace acc category (coerceScore value prev category)
        | none => acc) acc).map Prod.fst).Nodup := by
  induction cats generalizing acc with
  | nil => exact ⟨hgood, hnd⟩
  | cons c rest ih =>
    simp only [List.foldl_cons]
    cases hg : get_category_value data c with
    | none =>
      simp only [hg]
      exact ih (fun x hx => hsub x (List.mem_cons_of_mem _ hx)) acc hgood hnd
    | some v =>
      simp only [hg]
      refine ih (fun x hx => hsub x (List.mem_cons_of_mem _ hx)) _ ?_ ?_
      · intro p hp
        obtain ⟨a, b⟩ := p
        rcases mem_insertReplace hp with ⟨h1, h2⟩ | hp'
        · have hc : c ∈ required_categories := hsub c (List.mem_cons_self c rest)
          refine ⟨?_, ?_⟩
          · simpa [h1] using hc
          · simpa [h2] using coerceScore_good v hprev hc
        · exact hgood (a, b) hp'
      · exact nodup_keys_insertReplace hnd

theorem loop2_invariant (prev : PyDict) (hprev : prevValid prev = true)
    (cats : List String) (hsub : ∀ c ∈ cats, c ∈ required_categories)
    (acc : PyDict)
    (hgood : ∀ p ∈ acc, p.1 ∈ required_categories ∧ isGoodScore p.2 = true)
    (hnd : (acc.map Prod.fst).Nodup) :
    (∀ p ∈ cats.foldl (fun acc category =>
        match assocLookup acc category with
        | some _ => acc
        | none =>
          insertReplace acc category
            (match get_previous_value prev category with
             | some prev_value => prev_value
             | none => JsonVal.num 50)) acc, p.1 ∈ required_categories ∧ isGoodScore p.2 = true)
    ∧ ((cats.foldl (fun acc category =>
        match assocLookup acc category with
        | some _ => acc
        | none =>
          insertReplace acc category
            (match get_previous_value prev category with
             | some prev_value => prev_value
             | none => JsonVal.num 50)) acc).map Prod.fst).Nodup
    ∧ (∀ c ∈ cats, (assocLookup (cats.foldl (fun acc category =>
        match assocLookup acc category with
        | some _ => acc
        | none =>
          insertReplace acc category
            (match get_previous_value prev category with
             | some prev_value => prev_value
             | none => JsonVal.num 50)) acc) c).isSome = true)
    ∧ (∀ a, (assocLookup acc a).isSome = true → (assocLookup (cats.foldl (fun acc category =>
        match assocLookup acc category with
        | some _ => acc
        | none =>
          insertReplace acc category
            (match get_previous_value prev category with
             | some prev_value => prev_value
             | none => JsonVal.num 50)) acc) a).isSome = true) := by
  induction cats generalizing acc with
  | nil =>
    refine ⟨hgood, hnd, ?_, ?_⟩
    · intro c hc; simp at hc
    · intro a ha; simpa using ha
  | cons c rest ih =>
    have hrest : ∀ x ∈ rest, x ∈ required_categories :=
      fun x hx => hsub x (List.mem_cons_of_mem _ hx)
    have hc : c ∈ required_categories := hsub c (List.mem_cons_self c rest)
    simp only [List.foldl_cons]
    cases hl : assocLookup acc c with
    | some v0 =>
      simp only [hl]
      obtain ⟨g1, g2, g3, g4⟩ := ih hrest acc hgood hnd
      refine ⟨g1, g2, ?_, g4⟩
      intro x hx
      rcases List.mem_cons.1 hx with hxc | hxr
      · subst hxc
        exact g4 x (by simp [hl])
      · exact g3 x hxr
    | none =>
      simp only [hl]
      have hgood' : ∀ p ∈ insertReplace acc c
          (match get_previous_value prev c with
           | some prev_value => prev_value
           | none => JsonVal.num 50), p.1 ∈ required_categories ∧ isGoodScore p.2 = true := by
        intro p hp
        obtain ⟨a, b⟩ := p
        rcases mem_insertReplace hp with ⟨h1, h2⟩ | hp'
        · refine ⟨?_, ?_⟩
          · simpa [h1] using hc
          · simpa [h2] using fillValue_good hprev hc
        · exact hgood (a, b) hp'
      have hnd' := nodup_keys_insertReplace (k := c)
        (v := match get_previous_value prev c with
          | some prev_value => prev_value
          | none => JsonVal.num 50) hnd
      obtain ⟨g1, g2, g3, g4⟩ := ih hrest _ hgood' hnd'
      refine ⟨g1, g2, ?_, ?_⟩
      · intro x hx
        rcases List.mem_cons.1 hx with hxc | hxr
        · subst hxc
          exact g4 x (by simp [assocLookup_insertReplace_self])
        · exact g3 x hxr
      · intro a ha
        exact g4 a (lookup_isSome_insertReplace ha)

theorem loop2_preserves_some (prev : PyDict) (cats : List String)
    (acc : PyDict) (c : String) (x : JsonVal) (h : assocLookup acc c = some x) :
    assocLookup (cats.foldl (fun acc category =>
        match assocLookup acc category with
        | some _ => acc
        | none =>
          insertReplace acc category
            (match get_previous_value prev category with
             | some prev_value => prev_value
             | none => JsonVal.num 50)) acc) c = some x := by
  induction cats generalizing acc with
  | nil => simpa using h
  | cons d rest ih =>
    simp only [List.foldl_cons]
    cases hd : assocLookup acc d with
    | some y => simp only [hd]; exact ih acc h
    | none =>
      simp only [hd]
      by_cases hdc : d = c
      · subst hdc
        rw [h] at hd
        exact absurd hd (by simp)
      · refine ih _ ?_
        rw [assocLookup_insertReplace_ne _ _ _ _ (fun hh => hdc hh.symm)]
        exact h

theorem loop1_lookup_none (data prev : PyDict) (cats : List String)
    (acc : PyDict) (c : String)
    (hc : get_category_value data c = none) (hacc : assocLookup acc c = none) :
    assocLookup (cats.foldl (fun acc category =>
        match get_category_value data category with
        | some value => insertReplace acc category (coerceScore value prev category)
        | none => acc) acc) c = none := by
  induction cats generalizing acc with
  | nil => simpa using hacc
  | cons d rest ih =>
    simp only [List.foldl_cons]
    cases hd : get_category_value data d with
    | none => simp only [hd]; exact ih acc hacc
    | some v =>
      simp only [hd]
      by_cases hdc : d = c
      · subst hdc
        rw [hc] at hd
        exact absurd hd (by simp)
      · refine ih _ ?_
        rw [assocLookup_insertReplace_ne _ _ _ _ (fun hh => hdc hh.symm)]
        exact hacc

theorem loop2_fills_missing (prev : PyDict) (cats : List String)
    (acc : PyDict) (c : String) (hc : c ∈ cats) (hacc : assocLookup acc c = none) :
    assocLookup (cats.foldl (fun acc category =>
        match assocLookup acc category with
        | some _ => acc
        | none =>
          insertReplace acc category
            (match get_previous_value prev category with
             | some prev_value => prev_value
             | none => JsonVal.num 50)) acc) c =
      some (match get_previous_value prev c with
            | some prev_value => prev_value
            | none => JsonVal.num 50) := by
  induction cats generalizing acc with
  | nil => simp at hc
  | cons d rest ih =>
    simp only [List.foldl_cons]
    by_cases hdc : d = c
    · subst hdc
      simp only [hacc]
      exact loop2_preserves_some prev rest _ d _ (assocLookup_insertReplace_self _ _ _)
    · cases hd : assocLookup acc d with
      | some y =>
        simp only [hd]
        have hh : c ∈ rest := by
          rcases List.mem_cons.1 hc with h1 | h1
          · exact absurd h1.symm hdc
          · exact h1
        exact ih acc hh hacc
      | none =>
        simp only [hd]
        have hh : c ∈ rest := by
          rcases List.mem_cons.1 hc with h1 | h1
          · exact absurd h1.symm hdc
          · exact h1
        refine ih _ hh ?_
        rw [assocLookup_insertReplace_ne _ _ _ _ (fun h2 => hdc h2.symm)]
        exact hacc

theorem validate_wellness_scores_good (data prev : PyDict) (hprev : prevValid prev = true) :
    ((validate_wellness_scores data prev required_categories).map Prod.fst).Perm
        required_categories
    ∧ ∀ p ∈ validate_wellness_scores data prev required_categories, isGoodScore p.2 = true := by
  have hsub : ∀ c ∈ required_categories, c ∈ required_categories := fun c hc => hc
  obtain ⟨g1, g2⟩ := loop1_invariant data prev hprev required_categories hsub []
    (fun p hp => absurd hp (List.not_mem_nil p)) List.nodup_nil
  obtain ⟨k1, k2, k3, _⟩ := loop2_invariant prev hprev required_categories hsub _ g1 g2
  constructor
  · have hnd : required_categories.Nodup := by decide
    have hsub1 : (validate_wellness_scores data prev required_categories).map Prod.fst ⊆
        required_categories := by
      intro a ha
      obtain ⟨p, hp, hpa⟩ := List.mem_map.1 ha
      exact hpa ▸ (k1 p hp).1
    have hsub2 : required_categories ⊆
        (validate_wellness_scores data prev required_categories).map Prod.fst := by
      intro c hc
      exact mem_keys_of_lookup_isSome (k3 c hc)
    exact (k2.subperm hsub1).antisymm (hnd.subperm hsub2)
  · exact fun p hp => (k1 p hp).2

theorem validate_carry_forward (data prev : PyDict) (c : String)
    (hprev : prevValid prev = true) (hc : c ∈ required_categories)
    (hnone : get_category_value data c = none) :
    assocLookup (validate_wellness_scores data prev required_categories) c
      = assocLookup prev c := by
  obtain ⟨m, hm, _, _⟩ := prevValid_lookup hprev hc
  have h1 := loop1_lookup_none data prev required_categories [] c hnone rfl
  have h2 := loop2_fills_missing prev required_categories _ c hc h1
  have hview : (match get_previous_value prev c with
      | some prev_value => prev_value
      | none => JsonVal.num 50) = JsonVal.num m := by
    rw [get_previous_value_eq hprev hc, hm]
  rw [hview] at h2
  rw [hm]
  exact h2


/-- Claim C1: for every model-reply text and every previous wellness record whose
seven scores are integers in [0,100], the mapping produced by the Wellness
Extractor - parsing the reply with the response parser and repairing it
with the score validator - has key set exactly the seven categories, and
every value in it is an integer in [0,100]. -/
theorem c1_extractor_result_complete_and_in_range (t : String) (prev : PyDict)
    (hprev : prevValid prev = true) :
    ((validate_wellness_scores (parse_wellness_response t) prev required_categories).map
        Prod.fst).Perm required_categories
    ∧ ∀ p ∈ validate_wellness_scores (parse_wellness_response t) prev required_categories,
        isGoodScore p.2 = true :=
  validate_wellness_scores_good (parse_wellness_response t) prev hprev

/-- Witness for C1: a concrete garbage reply and a concrete previous record. -/
theorem c1_extractor_result_complete_and_in_range_witness :
    prevValid prevSample = true
    ∧ ((validate_wellness_scores (parse_wellness_response "no json in this reply") prevSample
        required_categories).map Prod.fst).Perm required_categories
    ∧ (validate_wellness_scores (parse_wellness_response "no json in this reply") prevSample
        required_categories).all (fun p => isGoodScore p.2) = true :=
  ⟨by decide,
   (c1_extractor_result_complete_and_in_range "no json in this reply" prevSample (by decide)).1,
   List.all_eq_true.2 fun p hp =>
     (c1_extractor_result_complete_and_in_range "no json in this reply" prevSample
       (by decide)).2 p hp⟩

/-- Claim C2: when the model gateway call raises, the database is left unchanged
(no chat row created, no message list modified, no wellness row written)
and the caller receives an error for the turn. -/
theorem c2_gateway_error_aborts_turn (gw : Gateway) (db : DbState)
    (prompt user_id user_school : String) (chat_id : Option Nat) (now : String)
    (e : String) (hgw : gw.chatReply = .error e) :
    (get_openai_response gw db prompt user_id user_school chat_id now).1 = db
    ∧ ∃ err : HttpErr,
        (get_openai_response gw db prompt user_id user_school chat_id now).2.2 =
          .error err := by
  simp only [get_openai_response, hgw]
  split
  · exact ⟨rfl, ⟨_, rfl⟩⟩
  · exact ⟨rfl, ⟨_, rfl⟩⟩

/-- Witness for C2: a failing gateway at a concrete database leaves it
untouched. -/
theorem c2_gateway_error_aborts_turn_witness :
    gwFail.chatReply = Except.error "openai_client unavailable"
    ∧ (get_openai_response gwFail dbOneChat "hi" "student@example.com" "school-1"
        (some 7) "t1").1 = dbOneChat :=
  ⟨rfl, (c2_gateway_error_aborts_turn gwFail dbOneChat "hi" "student@example.com" "school-1"
    (some 7) "t1" "openai_client unavailable" rfl).1⟩

/-- Claim C3: on an existing chat (turn persisted), every wellness-extraction or
wellness-persistence outcome - failures included - still returns the
normal chat response: the assistant reply, the chat id and the school
resources. -/
theorem c3_wellness_failure_not_blocking (gw : Gateway) (db : DbState)
    (prompt user_id user_school : String) (cid : Nat) (now : String) (ai : String)
    (hgw : gw.chatReply = .ok ai)
    (hchat : (db.chats.find? (fun c => c.chat_id == cid)).isSome = true)
    (hres : db.schoolLinks.filter (fun l => l.1 == user_school) = []) :
    (get_openai_response gw db prompt user_id user_school (some cid) now).2.2 =
      .ok ⟨ai, cid, []⟩ := by
  obtain ⟨row, hrow⟩ := Option.isSome_iff_exists.1 hchat
  simp [get_openai_response, hgw, hres, hrow]

/-- Witness for C3: both wellness model calls fail, the chat response is
returned regardless. -/
theorem c3_wellness_failure_not_blocking_witness :
    gwChatOnly.wellnessReply = Except.error "model down"
    ∧ (get_openai_response gwChatOnly dbOneChat "hi" "student@example.com" "school-1"
        (some 7) "t1").2.2 = Except.ok ⟨"Hello there!", 7, []⟩ :=
  ⟨rfl, c3_wellness_failure_not_blocking gwChatOnly dbOneChat "hi" "student@example.com"
    "school-1" 7 "t1" "Hello there!" rfl rfl rfl⟩

/-- Counterexample to C4 as stated: a reply with no parseable wellness data
at all, and a retry with none either, makes extraction fail with the
`ValueError` of the source rather than produce the all-50 mapping; nothing
is persisted and the wellness outcome of the turn is a failure. -/
theorem c4_counterexample :
    extract_wellness_data (.ok "I cannot produce scores.") (.ok "Still no scores.") =
      .error "Could not extract wellness data from the LLM response after retry"
    ∧ update_wellness_from_messages gwNoScores "student@example.com" "2025-01-01" dbEmpty =
        (dbEmpty, [Ev.extractWellness], false) :=
  ⟨rfl, rfl⟩

/-- Claim C4, amended: when extraction succeeds but the extracted data supplies a
value for none of the seven categories, and there is no previous record,
the validated result is exactly the all-50 mapping (an entirely
unparseable reply instead fails with an extraction error, see the
counterexample). -/
theorem c4_amended_default_all_fifty (reply retry_reply : Except String String) (d : PyDict)
    (_hd : extract_wellness_data reply retry_reply = .ok d)
    (hnone : ∀ c ∈ required_categories, get_category_value d c = none) :
    validate_wellness_scores d [] required_categories =
      required_categories.map (fun c => (c, JsonVal.num 50)) := by
  have h1 := hnone "physical" (by decide)
  have h2 := hnone "financial" (by decide)
  have h3 := hnone "emotional" (by decide)
  have h4 := hnone "spiritual" (by decide)
  have h5 := hnone "social" (by decide)
  have h6 := hnone "environmental" (by decide)
  have h7 := hnone "creative" (by decide)
  simp only [validate_wellness_scores, required_categories, List.foldl_cons, List.foldl_nil,
    h1, h2, h3, h4, h5, h6, h7]
  rfl

/-- Witness for the amended C4: a reply whose extracted data names no
category at all validates to exactly the all-50 mapping. -/
theorem c4_amended_default_all_fifty_witness :
    extract_wellness_data (.ok "\x7b\"mood\": \"fine\"\x7d") (.ok "") =
      .ok [("mood", JsonVal.str "fine")]
    ∧ validate_wellness_scores [("mood", JsonVal.str "fine")] [] required_categories =
        required_categories.map (fun c => (c, JsonVal.num 50)) :=
  ⟨rfl, c4_amended_default_all_fifty (.ok "\x7b\"mood\": \"fine\"\x7d") (.ok "")
    [("mood", JsonVal.str "fine")] rfl (by intro c hc; fin_cases hc <;> rfl)⟩

/-- Claim C5: a category the reply does not supply keeps the previous record's
value whenever a valid previous record exists, and the spec's concrete
scenario behaves exactly as stated: physical 80, social 40, every other
category carried forward as 70. -/
theorem c5_carry_forward_unsupplied_categories :
    (∀ (t : String) (prev : PyDict) (c : String), prevValid prev = true →
      c ∈ required_categories →
      get_category_value (parse_wellness_response t) c = none →
      assocLookup (validate_wellness_scores (parse_wellness_response t) prev
        required_categories) c = assocLookup prev c)
    ∧ (assocLookup (validate_wellness_scores
        (parse_wellness_response "\x7b\"Physical\": 80, \"social\": 40\x7d") prevSample
        required_categories) "physical" = some (JsonVal.num 80)
      ∧ assocLookup (validate_wellness_scores
        (parse_wellness_response "\x7b\"Physical\": 80, \"social\": 40\x7d") prevSample
        required_categories) "social" = some (JsonVal.num 40)
      ∧ assocLookup (validate_wellness_scores
        (parse_wellness_response "\x7b\"Physical\": 80, \"social\": 40\x7d") prevSample
        required_categories) "financial" = some (JsonVal.num 70)
      ∧ assocLookup (validate_wellness_scores
        (parse_wellness_response "\x7b\"Physical\": 80, \"social\": 40\x7d") prevSample
        required_categories) "emotional" = some (JsonVal.num 70)
      ∧ assocLookup (validate_wellness_scores
        (parse_wellness_response "\x7b\"Physical\": 80, \"social\": 40\x7d") prevSample
        required_categories) "spiritual" = some (JsonVal.num 70)
      ∧ assocLookup (validate_wellness_scores
        (parse_wellness_response "\x7b\"Physical\": 80, \"social\": 40\x7d") prevSample
        required_categories) "environmental" = some (JsonVal.num 70)
      ∧ assocLookup (validate_wellness_scores
        (parse_wellness_response "\x7b\"Physical\": 80, \"social\": 40\x7d") prevSample
        required_categories) "creative" = some (JsonVal.num 70)) :=
  ⟨fun t prev c hprev hc hn =>
      validate_carry_forward (parse_wellness_response t) prev c hprev hc hn,
   rfl, rfl, rfl, rfl, rfl, rfl, rfl⟩

/-- Witness for C5: in the scenario, the unsupplied category emotional is
carried forward from the previous record. -/
theorem c5_carry_forward_unsupplied_categories_witness :
    assocLookup (validate_wellness_scores
      (parse_wellness_response "\x7b\"Physical\": 80, \"social\": 40\x7d") prevSample
      required_categories) "emotional" = assocLookup prevSample "emotional" :=
  c5_carry_forward_unsupplied_categories.1 "\x7b\"Physical\": 80, \"social\": 40\x7d"
    prevSample "emotional" (by decide) (by decide) rfl

/-- Claim C6: the array reply with physical 150 parses in the
array-of-single-key-mappings form and the stored physical score is the
clamped 100, whatever the previous record; in general every successfully
coerced value is stored as the clamp of its integer value into [0,100]. -/
theorem c6_out_of_range_clamped :
    (∀ prev : PyDict,
      assocLookup (validate_wellness_scores
        (parse_wellness_response "[\x7b\"physical\": 150\x7d]") prev required_categories)
        "physical" = some (JsonVal.num 100))
    ∧ (∀ (value : JsonVal) (prev : PyDict) (category : String) (n : Int),
        pyInt value = some n →
        coerceScore value prev category = JsonVal.num (max 0 (min 100 n))) := by
  constructor
  · intro prev
    have hl1 : (required_categories.foldl (fun acc category =>
        match get_category_value (parse_wellness_response "[\x7b\"physical\": 150\x7d]")
            category with
        | some value => insertReplace acc category (coerceScore value prev category)
        | none => acc) []) = [("physical", JsonVal.num 100)] := by rfl
    have h2 := loop2_preserves_some prev required_categories
      (required_categories.foldl (fun acc category =>
        match get_category_value (parse_wellness_response "[\x7b\"physical\": 150\x7d]")
            category with
        | some value => insertReplace acc category (coerceScore value prev category)
        | none => acc) []) "physical" (JsonVal.num 100) (by rw [hl1]; rfl)
    exact h2
  · intro v prev c n h
    simp [coerceScore, h]

/-- Witness for C6: the clamp at the empty previous record, and the general
clamp equation at the literal 150. -/
theorem c6_out_of_range_clamped_witness :
    assocLookup (validate_wellness_scores
      (parse_wellness_response "[\x7b\"physical\": 150\x7d]") [] required_categories)
      "physical" = some (JsonVal.num 100)
    ∧ coerceScore (JsonVal.num 150) [] "physical" = JsonVal.num (max 0 (min 100 150)) :=
  ⟨c6_out_of_range_clamped.1 [],
   c6_out_of_range_clamped.2 (JsonVal.num 150) [] "physical" 150 rfl⟩

/-- Counterexample to C7 as stated: the all-caps reply key PHYSICAL IS
matched to its category - the parser lower-cases every key it stores - so
with no previous record the physical score becomes the extracted 80, not
the 50 an unmatched key would leave. -/
theorem c7_counterexample :
    assocLookup (validate_wellness_scores
      (parse_wellness_response "\x7b\"PHYSICAL\": 80\x7d") [] required_categories)
      "physical" = some (JsonVal.num 80)
    ∧ some (JsonVal.num 80) ≠ some (JsonVal.num 50) :=
  ⟨rfl, by simp⟩

theorem toNat_ofNat_valid (n : Nat) (h : n.isValidChar) : (Char.ofNat n).toNat = n := by
  rw [Char.ofNat, dif_pos h]
  rfl

theorem toLower_idem (x : Char) : Char.toLower (Char.toLower x) = Char.toLower x := by
  by_cases h : x.toNat ≥ 65 ∧ x.toNat ≤ 90
  · have h1 : Char.toLower x = Char.ofNat (x.toNat + 32) := by
      simp only [Char.toLower]
      rw [if_pos h]
    rw [h1]
    have h2 : (Char.ofNat (x.toNat + 32)).toNat = x.toNat + 32 :=
      toNat_ofNat_valid _ (Or.inl (by omega))
    simp only [Char.toLower]
    rw [h2, if_neg (by omega : ¬(x.toNat + 32 ≥ 65 ∧ x.toNat + 32 ≤ 90))]
  · have h1 : Char.toLower x = x := by
      simp only [Char.toLower]
      rw [if_neg h]
    rw [h1, h1]

theorem pyLower_idem (s : String) : pyLower (pyLower s) = pyLower s := by
  show String.mk ((s.data.map Char.toLower).map Char.toLower) = String.mk (s.data.map Char.toLower)
  rw [List.map_map]
  congr 1
  exact List.map_congr_left (fun x _ => toLower_idem x)

theorem lower_cat_chars :
    ∀ c ∈ required_categories, ∀ γ ∈ c.data, 97 ≤ γ.toNat ∧ γ.toNat ≤ 122 := by decide

theorem keyChar_not_special (x : Char) (h1 : 97 ≤ (Char.toLower x).toNat)
    (h2 : (Char.toLower x).toNat ≤ 122) : x ≠ '"' ∧ x ≠ '\\' := by
  constructor
  · intro he
    subst he
    exact absurd h1 (by decide)
  · intro he
    subst he
    exact absurd h1 (by decide)

theorem key_chars_safe {k c : String} (hc : c ∈ required_categories) (hk : pyLower k = c) :
    ∀ x ∈ k.data, x ≠ '"' ∧ x ≠ '\\' := by
  intro x hx
  have hmap : k.data.map Char.toLower = c.data := by
    rw [← hk]
    rfl
  have hmem : Char.toLower x ∈ c.data := by
    rw [← hmap]
    exact List.mem_map_of_mem Char.toLower hx
  have hb := lower_cat_chars c hc (Char.toLower x) hmem
  exact keyChar_not_special x hb.1 hb.2

theorem parseStringRest_safe (r : List Char) :
    ∀ cs : List Char, (∀ x ∈ cs, x ≠ '"' ∧ x ≠ '\\') →
      parseStringRest (cs ++ '"' :: r) = some (cs, r) := by
  intro cs
  induction cs with
  | nil => intro _; rfl
  | cons x cs ih =>
    intro h
    have hx := h x (List.mem_cons_self x cs)
    have ih' := ih (fun y hy => h y (List.mem_cons_of_mem x hy))
    rw [List.cons_append, parseStringRest.eq_def]
    split <;> simp_all

theorem parseVal_num80 (f : Nat) :
    parseVal (f + 1) (' ' :: '8' :: '0' :: '}' :: []) = some (JsonVal.num 80, '}' :: []) := rfl

theorem parseMembers_single (k : String) (f : Nat)
    (hsafe : ∀ x ∈ k.data, x ≠ '"' ∧ x ≠ '\\') :
    parseMembers (f + 2) ('"' :: (k.data ++ '"' :: ':' :: ' ' :: '8' :: '0' :: '}' :: [])) []
      = some (.obj [(k, JsonVal.num 80)], []) := by
  have h1 := parseStringRest_safe (':' :: ' ' :: '8' :: '0' :: '}' :: []) k.data hsafe
  have hred : parseMembers (f + 2)
      ('"' :: (k.data ++ '"' :: ':' :: ' ' :: '8' :: '0' :: '}' :: [])) [] =
      (match parseStringRest (k.data ++ '"' :: ':' :: ' ' :: '8' :: '0' :: '}' :: []) with
       | none => none
       | some (key, r1) =>
         match skipWs r1 with
         | ':' :: r2 =>
           match parseVal (f + 1) r2 with
           | none => none
           | some (v, r3) =>
             match skipWs r3 with
             | ',' :: r4 => parseMembers (f + 1) r4 (insertReplace [] (String.mk key) v)
             | '}' :: r4 => some (.obj (insertReplace [] (String.mk key) v), r4)
             | _ => none
         | _ => none) := rfl
  rw [hred, h1]
  show (match parseVal (f + 1) (' ' :: '8' :: '0' :: '}' :: []) with
        | none => none
        | some (v, r3) =>
          match skipWs r3 with
          | ',' :: r4 => parseMembers (f + 1) r4 (insertReplace [] (String.mk k.data) v)
          | '}' :: r4 => some (.obj (insertReplace [] (String.mk k.data) v), r4)
          | _ => none) = some (.obj [(k, JsonVal.num 80)], [])
  rw [parseVal_num80 f]
  rfl

theorem parseVal_single_obj (k : String) (f : Nat)
    (hsafe : ∀ x ∈ k.data, x ≠ '"' ∧ x ≠ '\\') :
    parseVal (f + 3) ('{' :: '"' :: (k.data ++ '"' :: ':' :: ' ' :: '8' :: '0' :: '}' :: []))
      = some (.obj [(k, JsonVal.num 80)], []) := by
  have hstep : parseVal (f + 3)
      ('{' :: '"' :: (k.data ++ '"' :: ':' :: ' ' :: '8' :: '0' :: '}' :: []))
      = parseMembers (f + 2)
        ('"' :: (k.data ++ '"' :: ':' :: ' ' :: '8' :: '0' :: '}' :: [])) [] := rfl
  rw [hstep]
  exact parseMembers_single k f hsafe

theorem reSearchBraces_wrap (l : List Char) :
    reSearchBraces ('{' :: (l ++ '}' :: [])) = some ('{' :: (l ++ '}' :: [])) := by
  have h0 : dropToBrace ('{' :: (l ++ '}' :: [])) = some ('{' :: (l ++ '}' :: [])) := rfl
  have h1 : ('{' :: (l ++ '}' :: [])).reverse = '}' :: (l.reverse ++ '{' :: []) := by
    simp
  have h2 : List.dropWhile (fun c => c ≠ '}') ('}' :: (l.reverse ++ '{' :: [])) =
      '}' :: (l.reverse ++ '{' :: []) := rfl
  unfold reSearchBraces
  rw [h0]
  show (match List.dropWhile (fun c => c ≠ '}') ('{' :: (l ++ '}' :: [])).reverse with
        | [] => none
        | r => some r.reverse) = some ('{' :: (l ++ '}' :: []))
  rw [h1, h2]
  show some ('}' :: (l.reverse ++ '{' :: [])).reverse = some ('{' :: (l ++ '}' :: []))
  simp

theorem json_loads_single_key (k : String)
    (hsafe : ∀ x ∈ k.data, x ≠ '"' ∧ x ≠ '\\') :
    json_loads ("\x7b\"" ++ k ++ "\": 80\x7d") = some (.obj [(k, JsonVal.num 80)]) := by
  have hdata : ("\x7b\"" ++ k ++ "\": 80\x7d").data
      = '{' :: '"' :: (k.data ++ '"' :: ':' :: ' ' :: '8' :: '0' :: '}' :: []) := rfl
  have hklen : k.length = k.data.length := rfl
  have hlen : ("\x7b\"" ++ k ++ "\": 80\x7d").length = k.data.length + 8 := by
    show ("\x7b\"" ++ k ++ "\": 80\x7d").data.length = k.data.length + 8
    rw [hdata]
    simp
  have hfuel : 2 * ("\x7b\"" ++ k ++ "\": 80\x7d").length + 2 = (2 * k.data.length + 15) + 3 := by
    rw [hlen]
    omega
  unfold json_loads
  rw [hfuel, hdata, parseVal_single_obj k (2 * k.data.length + 15) hsafe]
  rfl

theorem parse_single_key_reply (k : String)
    (hsafe : ∀ x ∈ k.data, x ≠ '"' ∧ x ≠ '\\') :
    parse_wellness_response ("\x7b\"" ++ k ++ "\": 80\x7d") = [(pyLower k, JsonVal.num 80)] := by
  have hdata : ("\x7b\"" ++ k ++ "\": 80\x7d").data
      = '{' :: '"' :: (k.data ++ '"' :: ':' :: ' ' :: '8' :: '0' :: '}' :: []) := rfl
  have hshape : '{' :: '"' :: (k.data ++ '"' :: ':' :: ' ' :: '8' :: '0' :: '}' :: [])
      = '{' :: (('"' :: k.data ++ '"' :: ':' :: ' ' :: '8' :: '0' :: []) ++ '}' :: []) := by
    simp
  have hcond : ¬(("\x7b\"" ++ k ++ "\": 80\x7d").data.head? = some '['
      ∧ ("\x7b\"" ++ k ++ "\": 80\x7d").data.getLast? = some ']') := by
    intro hcon
    have hh := hcon.1
    rw [hdata] at hh
    simp at hh
  have hre : reSearchBraces (("\x7b\"" ++ k ++ "\": 80\x7d").data)
      = some (("\x7b\"" ++ k ++ "\": 80\x7d").data) := by
    rw [hdata, hshape]
    exact reSearchBraces_wrap _
  have hmk : String.mk (("\x7b\"" ++ k ++ "\": 80\x7d").data) = ("\x7b\"" ++ k ++ "\": 80\x7d") := rfl
  unfold parse_wellness_response
  rw [if_neg hcond, hre]
  show (match json_loads (String.mk (("\x7b\"" ++ k ++ "\": 80\x7d").data)) with
        | some (.obj kvs) => List.foldl (fun a kv => insertReplace a (pyLower kv.1) kv.2) [] kvs
        | _ => []) = [(pyLower k, JsonVal.num 80)]
  rw [hmk, json_loads_single_key k hsafe]
  rfl

theorem parse_any_casing_matched (k c : String) (hc : c ∈ required_categories)
    (hk : pyLower k = c) :
    get_category_value (parse_wellness_response ("\x7b\"" ++ k ++ "\": 80\x7d")) c
      = some (JsonVal.num 80) := by
  rw [parse_single_key_reply k (key_chars_safe hc hk), hk]
  simp [get_category_value, assocLookup]

theorem fold_kv_lower (kvs : List (String × JsonVal)) (acc : PyDict)
    (hacc : ∀ p ∈ acc, pyLower p.1 = p.1) :
    ∀ p ∈ kvs.foldl (fun a kv => insertReplace a (pyLower kv.1) kv.2) acc,
      pyLower p.1 = p.1 := by
  induction kvs generalizing acc with
  | nil => exact hacc
  | cons kv rest ih =>
    simp only [List.foldl_cons]
    refine ih _ ?_
    intro p hp
    obtain ⟨a, b⟩ := p
    rcases mem_insertReplace hp with ⟨h1, _⟩ | hp'
    · show pyLower a = a
      rw [h1]
      exact pyLower_idem kv.1
    · exact hacc (a, b) hp'

theorem fold_items_lower (items : List JsonVal) (acc : PyDict)
    (hacc : ∀ p ∈ acc, pyLower p.1 = p.1) :
    ∀ p ∈ items.foldl (fun acc item =>
        match item with
        | .obj kvs => kvs.foldl (fun a kv => insertReplace a (pyLower kv.1) kv.2) acc
        | _ => acc) acc, pyLower p.1 = p.1 := by
  induction items generalizing acc with
  | nil => exact hacc
  | cons it rest ih =>
    simp only [List.foldl_cons]
    cases it with
    | obj kvs => exact ih _ (fold_kv_lower kvs acc hacc)
    | num n => exact ih _ hacc
    | str s => exact ih _ hacc
    | boolean b => exact ih _ hacc
    | null => exact ih _ hacc
    | arr xs => exact ih _ hacc

theorem parse_keys_lower (t : String) :
    ∀ p ∈ parse_wellness_response t, pyLower p.1 = p.1 := by
  have hnil : ∀ p ∈ ([] : PyDict), pyLower p.1 = p.1 :=
    fun p hp => absurd hp (List.not_mem_nil p)
  simp only [parse_wellness_response]
  split
  · split
    · exact fold_items_lower _ [] hnil
    · exact hnil
  · split
    · split
      · exact fold_kv_lower _ [] hnil
      · exact hnil
    · split
      · exact fold_kv_lower _ [] hnil
      · exact hnil

theorem cap_not_lower :
    ∀ c ∈ required_categories, pyLower (pyCapitalize c) ≠ pyCapitalize c := by decide

theorem lookup_none_of_all_lower (d : PyDict) (hlow : ∀ p ∈ d, pyLower p.1 = p.1)
    (s : String) (hs : pyLower s ≠ s) : assocLookup d s = none := by
  induction d with
  | nil => rfl
  | cons hd tl ih =>
    obtain ⟨k1, v1⟩ := hd
    by_cases hk : k1 = s
    · subst hk
      exact absurd (hlow (k1, v1) (List.mem_cons_self _ _)) hs
    · simp only [assocLookup, if_neg hk]
      exact ih (fun p hp => hlow p (List.mem_cons_of_mem _ hp))

theorem get_category_value_on_parse (t c : String) (hc : c ∈ required_categories) :
    get_category_value (parse_wellness_response t) c
      = assocLookup (parse_wellness_response t) c := by
  cases h : assocLookup (parse_wellness_response t) c with
  | some v => simp [get_category_value, h]
  | none =>
    simp [get_category_value, h,
      lookup_none_of_all_lower _ (parse_keys_lower t) _ (cap_not_lower c hc)]
/-- Claim C7, amended: category-name matching on keys extracted from the
model reply is insensitive to every casing, because
`_parse_wellness_response` lower-cases each key before storing it: a reply
key in any casing whose lower-cased form is a category name is matched to
that category; every key the parser stores is already lower-case, so the
exact-lowercase-or-exact-Capitalized test of `_get_category_value` can
only ever fire through its lowercase branch on parse output. -/
theorem c7_amended_any_casing_matched :
    (∀ k c : String, c ∈ required_categories → pyLower k = c →
      get_category_value (parse_wellness_response ("\x7b\"" ++ k ++ "\": 80\x7d")) c
        = some (JsonVal.num 80))
    ∧ (∀ (t : String) (p : String × JsonVal), p ∈ parse_wellness_response t →
        pyLower p.1 = p.1)
    ∧ (∀ t c : String, c ∈ required_categories →
        get_category_value (parse_wellness_response t) c
          = assocLookup (parse_wellness_response t) c) :=
  ⟨fun k c hc hk => parse_any_casing_matched k c hc hk,
   fun t p hp => parse_keys_lower t p hp,
   fun t c hc => get_category_value_on_parse t c hc⟩

/-- Witness for the amended C7: the all-caps and the mixed-case spellings
of physical are both matched to their category. -/
theorem c7_amended_any_casing_matched_witness :
    get_category_value (parse_wellness_response ("\x7b\"" ++ "PHYSICAL" ++ "\": 80\x7d"))
      "physical" = some (JsonVal.num 80)
    ∧ get_category_value (parse_wellness_response ("\x7b\"" ++ "pHysical" ++ "\": 80\x7d"))
      "physical" = some (JsonVal.num 80) :=
  ⟨c7_amended_any_casing_matched.1 "PHYSICAL" "physical" (by decide) (by decide),
   c7_amended_any_casing_matched.1 "pHysical" "physical" (by decide) (by decide)⟩

/-- Claim C8, amended: a successful turn on an existing chat id passes through
gather-context, call-model, persist-turn, extract-wellness and
persist-wellness in that order before done; a first turn (new chat)
instead completes after persist-turn without invoking wellness extraction
(see the counterexample). -/
theorem c8_amended_existing_chat_full_order (gw : Gateway) (db : DbState)
    (prompt user_id user_school : String) (cid : Nat) (now : String) (ai wr : String)
    (hgw : gw.chatReply = .ok ai)
    (hchat : (db.chats.find? (fun c => c.chat_id == cid)).isSome = true)
    (hres : db.schoolLinks.filter (fun l => l.1 == user_school) = [])
    (hw : gw.wellnessReply = .ok wr)
    (hwp : (parse_wellness_response wr).isEmpty = false) :
    (get_openai_response gw db prompt user_id user_school (some cid) now).2.1 =
      [Ev.gatherContext, Ev.callModel, Ev.persistTurn, Ev.extractWellness,
       Ev.persistWellness, Ev.done] := by
  obtain ⟨row, hrow⟩ := Option.isSome_iff_exists.1 hchat
  simp [get_openai_response, hgw, hres, hrow, update_wellness_from_messages,
    extract_wellness_data, hw, hwp]

/-- Witness for the amended C8 at a concrete database and gateway. -/
theorem c8_amended_existing_chat_full_order_witness :
    (get_openai_response gwGood dbOneChat "hi" "student@example.com" "school-1"
      (some 7) "t1").2.1 =
      [Ev.gatherContext, Ev.callModel, Ev.persistTurn, Ev.extractWellness,
       Ev.persistWellness, Ev.done] :=
  c8_amended_existing_chat_full_order gwGood dbOneChat "hi" "student@example.com" "school-1"
    7 "t1" "Hello there!" "\x7b\"physical\": 80\x7d" rfl rfl rfl rfl rfl

/-- Counterexample to C8 as stated: the first turn of a conversation (no
chat id supplied) reaches done directly after persisting the new chat;
wellness extraction is never invoked on that path. -/
theorem c8_counterexample :
    (get_openai_response gwChatOnly dbEmpty "hello" "student@example.com" "school-1"
      none "t0").2.1 = [Ev.gatherContext, Ev.callModel, Ev.persistTurn, Ev.done]
    ∧ Ev.done ∈ (get_openai_response gwChatOnly dbEmpty "hello" "student@example.com"
        "school-1" none "t0").2.1
    ∧ Ev.extractWellness ∉ (get_openai_response gwChatOnly dbEmpty "hello"
        "student@example.com" "school-1" none "t0").2.1 := by
  refine ⟨rfl, ?_, ?_⟩ <;> decide

/-- Claim C9 (a code bug): the services construct the intended 404 for a missing
row, but the surrounding blanket `except Exception` re-wraps it, so the
caller actually receives a 500 whose detail merely quotes the 404 - not a
NotFound rejection. -/
theorem c9_notfound_rewrapped_to_500 :
    get_user [] "ghost@example.com" =
      .error ⟨500, "Error retrieving user: 404: User with identifier ghost@example.com not found"⟩
    ∧ get_user_chat dbEmpty 99 =
      .error ⟨500, "Error retrieving chat: 404: Chat with ID 99 not found"⟩
    ∧ get_user_inner [] "ghost@example.com" =
      .error ⟨404, "User with identifier ghost@example.com not found"⟩
    ∧ (500 : Nat) ≠ 404 :=
  ⟨rfl, rfl, rfl, by decide⟩

/-- Claim C10: an update whose optional fields are all absent performs no
database write and returns the stored record unchanged. -/
theorem c10_empty_update_is_noop (rows : List WellnessTableRow) (wid : Nat)
    (w : UserWellnessUpdate) (hw : emptyUpdate w = true)
    (r : WellnessTableRow) (hr : rows.find? (fun x => x.wellness_id == wid) = some r) :
    (update_user_wellness rows wid w).1 = rows
    ∧ (update_user_wellness rows wid w).2 = .ok r := by
  simp [update_user_wellness, hw, get_user_wellness, hr]

/-- Witness for C10 at a concrete one-row table. -/
theorem c10_empty_update_is_noop_witness :
    emptyUpdate emptyWellnessUpdate = true
    ∧ (update_user_wellness [wellnessRowSample] 5 emptyWellnessUpdate).1 = [wellnessRowSample]
    ∧ (update_user_wellness [wellnessRowSample] 5 emptyWellnessUpdate).2 =
        .ok wellnessRowSample :=
  ⟨rfl,
   (c10_empty_update_is_noop [wellnessRowSample] 5 emptyWellnessUpdate rfl
     wellnessRowSample rfl).1,
   (c10_empty_update_is_noop [wellnessRowSample] 5 emptyWellnessUpdate rfl
     wellnessRowSample rfl).2⟩
